import Mathlib

/-!
Verification of the Ollama content-generator bridge
(src/packages/core/src/core/ollamaContentGenerator.ts).

The TypeScript class OllamaContentGenerator adapts the normalized
generate-content vocabulary onto an OpenAI-compatible HTTP backend:
role mapping, message flattening, a non-streaming responder, an
incremental line-buffered streaming decoder, and a sequential
embedding driver.

Shallow embedding conventions:
- JS strings are Lean String values; the streaming decoder, which the
  source drives character-by-character through buffer.split and
  String.prototype.trim, is modelled over List Char.
- Optional / possibly-undefined fields become Option.
- JS truthiness tests on strings (if (s) ...) become the test
  "s is some value different from the empty string"; the JS idiom
  x || d becomes jsOrDefault.
- fetch responses are modelled as an HttpResponse record carrying the
  numeric status, the statusText and the body text; JSON.parse and
  response.json are modelled as caller-supplied parse functions
  returning Option of the typed shape, none meaning a parse failure.
- Thrown JS errors become Except.error carrying the message string the
  source builds.
- Embedding vector elements (JS floats, never computed on) are a type
  parameter Num.
-/

namespace Ollama

/-- Embedding of JS String.prototype.toUpperCase (ASCII case mapping). -/
def jsToUpperCase (s : String) : String := ⟨s.data.map Char.toUpper⟩

/-- Embedding of the JS idiom (o || d) for an optional string o:
the default is taken when o is absent or the empty string (falsy). -/
def jsOrDefault (o : Option String) (d : String) : String :=
  match o with
  | some s => if s = "" then d else s
  | none => d

/-- A content fragment of a Conversation Turn; only the text field is
consulted by the bridge (genai Part, optional text). -/
structure Part where
  text : Option String
  deriving DecidableEq, Repr

/-- A Conversation Turn (genai Content): optional role, optional part list. -/
structure Content where
  role : Option String
  parts : Option (List Part)
  deriving DecidableEq, Repr

/-- The union type accepted for request.contents by normalizeContents:
an array of Content, a plain string, or a single Content object. -/
inductive ContentsUnion where
  | list (cs : List Content)
  | str (s : String)
  | single (c : Content)
  deriving DecidableEq, Repr

/-- The request shape consulted by the bridge operations: model name and
contents (GenerateContentParameters / EmbedContentParameters). -/
structure GenRequest where
  model : String
  contents : ContentsUnion
  deriving DecidableEq, Repr

/-- interface OpenAIMessage, the wire message sent to the backend. -/
structure OpenAIMessage where
  role : String
  content : String
  deriving DecidableEq, Repr

/-- message field of a non-streaming completion choice. -/
structure CompletionMessage where
  role : String
  content : String
  deriving DecidableEq, Repr

/-- One choice of interface OpenAICompletionResponse. -/
structure CompletionChoice where
  index : Int
  message : CompletionMessage
  finish_reason : String
  deriving DecidableEq, Repr

/-- usage field of interface OpenAICompletionResponse. -/
structure CompletionUsage where
  prompt_tokens : Int
  completion_tokens : Int
  total_tokens : Int
  deriving DecidableEq, Repr

/-- interface OpenAICompletionResponse (non-streaming backend completion). -/
structure OpenAICompletionResponse where
  id : String
  object : String
  created : Int
  choices : List CompletionChoice
  usage : CompletionUsage
  deriving DecidableEq, Repr

/-- delta field of a streaming choice: optional incremental content. -/
structure StreamDelta where
  content : Option String
  deriving DecidableEq, Repr

/-- One choice of interface OpenAIStreamChunk; finish_reason is
string-or-null in the source, modelled as Option String. -/
structure StreamChoice where
  index : Int
  delta : StreamDelta
  finish_reason : Option String
  deriving DecidableEq, Repr

/-- interface OpenAIStreamChunk. The choices field is Option because the
decoding loop guards it with (data.choices && data.choices.length > 0):
a parsed frame may lack the field at runtime. -/
structure OpenAIStreamChunk where
  id : String
  object : String
  created : Int
  model : String
  choices : Option (List StreamChoice)
  deriving DecidableEq, Repr

/-- A text part of a normalized response candidate. -/
structure OutPart where
  text : String
  deriving DecidableEq, Repr

/-- content field of a normalized response candidate. -/
structure OutContent where
  role : String
  parts : List OutPart
  deriving DecidableEq, Repr

/-- One candidate of the normalized GenerateContentResponse. finishReason
is Option String: the source leaves it undefined on some stream chunks. -/
structure Candidate where
  content : OutContent
  finishReason : Option String
  index : Int
  deriving DecidableEq, Repr

/-- usageMetadata of the normalized response. -/
structure UsageMetadata where
  promptTokenCount : Int
  candidatesTokenCount : Int
  totalTokenCount : Int
  deriving DecidableEq, Repr

/-- The normalized response envelope produced by the bridge. Streaming
chunks carry no usageMetadata (none). -/
structure GenerateContentResponse where
  candidates : List Candidate
  usageMetadata : Option UsageMetadata
  deriving DecidableEq, Repr

/-- A fetch response as consulted by the source: numeric status,
statusText, and the body text (response.text). -/
structure HttpResponse where
  status : Nat
  statusText : String
  body : String
  deriving DecidableEq, Repr

/-- fetch Response.ok: status in the inclusive range 200..299. -/
def HttpResponse.ok (r : HttpResponse) : Bool :=
  200 ≤ r.status && r.status ≤ 299

/-- private toOpenAIRole (lines 71-75): user stays user, model becomes
assistant, anything else becomes system. -/
def toOpenAIRole (role : String) : String :=
  if role = "user" then "user"
  else if role = "model" then "assistant"
  else "system"

/-- private normalizeContents (lines 77-86): an array passes through, a
string becomes one user turn with one text part, anything else is taken
as a single Content. -/
def normalizeContents : ContentsUnion → List Content
  | .list cs => cs
  | .str s => [{ role := some "user", parts := some [{ text := some s }] }]
  | .single c => [c]

/-- private toOpenAIMessages (lines 88-102): one backend message per turn.
The role is toOpenAIRole (content.role || user); the content is the
concatenation (join with empty separator) of part.text ? part.text : empty
over the turn's parts (parts || empty list). A part whose text is absent,
and equally a part whose text is the empty string (falsy), contributes
the empty string, so both are modelled by Option.getD. -/
def toOpenAIMessages (contents : List Content) : List OpenAIMessage :=
  contents.map (fun content =>
    { role := toOpenAIRole (jsOrDefault content.role "user"),
      content := String.join ((content.parts.getD []).map (fun part => part.text.getD "")) })

/-- The JSON payload POSTed to the chat-completions endpoint. -/
structure ChatPayload where
  model : String
  messages : List OpenAIMessage
  stream : Bool
  deriving DecidableEq, Repr

/-- Effective model selection (lines 110-112, 159-161, 247-249):
request.model.startsWith(gemini) picks the configured default model,
otherwise the requested name passes through verbatim. -/
def effectiveModel (cfgModel requested : String) : String :=
  if requested.startsWith "gemini" then cfgModel else requested

/-- The request body generateContent sends (lines 108-123). -/
def generateContentPayload (cfgModel : String) (req : GenRequest) : ChatPayload :=
  { model := effectiveModel cfgModel req.model,
    messages := toOpenAIMessages (normalizeContents req.contents),
    stream := false }

/-- The request body generateContentStream sends (lines 157-172). -/
def generateContentStreamPayload (cfgModel : String) (req : GenRequest) : ChatPayload :=
  { model := effectiveModel cfgModel req.model,
    messages := toOpenAIMessages (normalizeContents req.contents),
    stream := true }

/-- The error message thrown on a non-ok chat-completions response
(lines 128 and 177): Ollama API error: status - errorText. -/
def ollamaApiErrorMsg (status : Nat) (body : String) : String :=
  "Ollama API error: " ++ toString status ++ " - " ++ body

/-- The error message thrown on a non-ok embeddings response (line 277):
Ollama Embedding Error: statusText. -/
def embeddingErrorMsg (statusText : String) : String :=
  "Ollama Embedding Error: " ++ statusText

/-- Mapping of one completion choice to a candidate (lines 134-141). -/
def completionCandidate (choice : CompletionChoice) : Candidate :=
  { content := { role := "model", parts := [{ text := choice.message.content }] },
    finishReason := some (jsToUpperCase choice.finish_reason),
    index := choice.index }

/-- Mapping of a whole completion to the normalized response
(lines 133-147), usage copied field-by-field. -/
def completionToResponse (data : OpenAICompletionResponse) : GenerateContentResponse :=
  { candidates := data.choices.map completionCandidate,
    usageMetadata := some
      { promptTokenCount := data.usage.prompt_tokens,
        candidatesTokenCount := data.usage.completion_tokens,
        totalTokenCount := data.usage.total_tokens } }

/-- generateContent after the fetch (lines 126-150), as a function of the
HTTP response and of the JSON parse of its body (response.json; none
models a parse rejection, which the source does not catch). -/
def generateContent (resp : HttpResponse)
    (parseBody : String → Option OpenAICompletionResponse) :
    Except String GenerateContentResponse :=
  if resp.ok then
    match parseBody resp.body with
    | some data => .ok (completionToResponse data)
    | none => .error "SyntaxError: invalid JSON body"
  else .error (ollamaApiErrorMsg resp.status resp.body)

/-- JS whitespace characters removed by String.prototype.trim
(ASCII subset). -/
def isJsSpace (c : Char) : Bool :=
  c = ' ' || c = '\t' || c = '\n' || c = '\r' || c = '\x0b' || c = '\x0c'

/-- Embedding of line.trim() on character lists. -/
def trimChars (l : List Char) : List Char :=
  ((l.dropWhile isJsSpace).reverse.dropWhile isJsSpace).reverse

/-- Embedding of the split-and-carry idiom of lines 194-195:
lines = buffer.split(newline); buffer = lines.pop() || empty.
Returns (complete lines, retained remainder): every element of the first
component was terminated by a newline that is consumed; the second
component is the trailing text after the last newline (possibly all of
the input when it holds no newline). consHead prepends one non-newline
character to the first line of an already-split tail. -/
def consHead (c : Char) (p : List (List Char) × List Char) :
    List (List Char) × List Char :=
  match p.1 with
  | [] => ([], c :: p.2)
  | l :: ls => ((c :: l) :: ls, p.2)

def splitComplete : List Char → List (List Char) × List Char
  | [] => ([], [])
  | c :: rest =>
    if c = '\n' then ([] :: (splitComplete rest).1, (splitComplete rest).2)
    else consHead c (splitComplete rest)

/-- The literal terminator line data: [DONE] of line 199. -/
def doneLine : List Char := "data: [DONE]".data

/-- The literal line marker data: (with trailing space) of line 200. -/
def streamDataTag : List Char := "data: ".data

/-- The finishReason of a streamed candidate (lines 213-215):
finish_reason?.toUpperCase() || undefined. A null finish_reason gives
undefined through the optional chain; an upper-cased result that is the
empty string is falsy, so it too collapses to undefined. -/
def jsFinishReason (fr : Option String) : Option String :=
  match fr with
  | some f =>
    let u := jsToUpperCase f
    if u = "" then none else some u
  | none => none

/-- The chunks emitted for one parsed stream frame (lines 203-226):
nothing unless choices is present and non-empty; only the first choice
is inspected; nothing unless its delta.content is truthy (present and
non-empty); otherwise exactly one normalized chunk with a single
candidate: role model, one text part equal to the delta content,
jsFinishReason of the choice's finish_reason, index 0. -/
def frameChunks (data : OpenAIStreamChunk) : List GenerateContentResponse :=
  match data.choices with
  | some (c0 :: _) =>
    match c0.delta.content with
    | some s =>
      if s = "" then []
      else
        [{ candidates :=
            [{ content := { role := "model", parts := [{ text := s }] },
               finishReason := jsFinishReason c0.finish_reason,
               index := 0 }],
           usageMetadata := none }]
    | none => []
  | _ => []

/-- Processing of one complete line (lines 197-231): trim; skip when
empty or the literal terminator; when the line starts with the data tag,
JSON.parse the remainder (slice(6)); a parse failure is swallowed by the
try/catch and yields nothing; a parsed frame yields frameChunks. Lines
without the tag yield nothing. The function is total: no error escapes. -/
def processLine (parse : List Char → Option OpenAIStreamChunk)
    (line : List Char) : List GenerateContentResponse :=
  let trimmed := trimChars line
  if trimmed = [] then []
  else if trimmed = doneLine then []
  else if streamDataTag.isPrefixOf trimmed then
    match parse (trimmed.drop 6) with
    | some data => frameChunks data
    | none => []
  else []

/-- One iteration of the decoding loop (lines 193-231) on the state
(Decode Buffer, output so far): append the arrived chunk to the buffer,
split off the complete lines, retain the trailing remainder as the new
buffer, and append the chunks produced by each complete line in order. -/
def streamStep (parse : List Char → Option OpenAIStreamChunk)
    (st : List Char × List GenerateContentResponse) (chunk : List Char) :
    List Char × List GenerateContentResponse :=
  let sp := splitComplete (st.1 ++ chunk)
  (sp.2, st.2 ++ sp.1.flatMap (processLine parse))

/-- The whole decoding loop (lines 187-233) over the finite list of byte
chunks the transport delivers: fold streamStep from the empty buffer; at
end-of-stream the loop breaks and a trailing partial line still in the
buffer is discarded unprocessed. -/
def decodeStream (parse : List Char → Option OpenAIStreamChunk)
    (chunks : List (List Char)) : List GenerateContentResponse :=
  (chunks.foldl (streamStep parse) ([], [])).2

/-- generateContentStream after the fetch (lines 175-233): the non-ok
check and the missing-body check happen during setup, before the async
generator exists, so a failure there produces an error instead of a
sequence; otherwise the decoded chunk sequence. bodyChunks is the list
of text chunks the transport delivers (none models a null body). -/
def generateContentStream (resp : HttpResponse)
    (bodyChunks : Option (List (List Char)))
    (parse : List Char → Option OpenAIStreamChunk) :
    Except String (List GenerateContentResponse) :=
  if resp.ok then
    match bodyChunks with
    | none => .error "No response body from Ollama"
    | some chunks => .ok (decodeStream parse chunks)
  else .error (ollamaApiErrorMsg resp.status resp.body)

/-- Re-assembly of a splitComplete result: each complete line regains its
consumed newline, followed by the retained remainder. -/
def unsplitLines (ls : List (List Char)) (r : List Char) : List Char :=
  (ls.map (fun l => l ++ ['\n'])).flatten ++ r

/-- One element of the data array of an embeddings response. -/
structure EmbeddingItem (Num : Type) where
  embedding : List Num
  deriving DecidableEq, Repr

/-- The parsed JSON of an embeddings response; the data field is guarded
by (data.data && data.data.length > 0) in the source, so it is Option. -/
structure EmbedResponseData (Num : Type) where
  data : Option (List (EmbeddingItem Num))
  deriving DecidableEq, Repr

/-- One collected embedding result: values is the first data element's
vector (line 282). -/
structure ContentEmbedding (Num : Type) where
  values : List Num
  deriving DecidableEq, Repr

/-- The normalized embedContent response envelope. -/
structure EmbedContentResponse (Num : Type) where
  embeddings : List (ContentEmbedding Num)
  deriving DecidableEq, Repr

/-- Extraction of the input texts (lines 253-262): for each turn with a
parts list, every part whose text is truthy (present and non-empty) is
pushed, in turn order then part order. -/
def extractTexts (contents : List Content) : List String :=
  contents.flatMap (fun content =>
    match content.parts with
    | some ps => ps.filterMap (fun part =>
        match part.text with
        | some t => if t = "" then none else some t
        | none => none)
    | none => [])

/-- The sequential per-text loop of embedContent (lines 264-284), as a
function of the call number (respOf i is the HTTP response to the i-th
POST together with the parse of its JSON body). Returns the list of
inputs actually POSTed, in order, paired with the outcome: a non-ok
response throws the embedding error immediately (aborting the remaining
calls); an unparseable body throws (response.json rejection, uncaught);
otherwise the first data element's vector is appended when data is
present and non-empty, and the text is silently skipped when not. -/
def embedLoop {Num : Type}
    (respOf : Nat → HttpResponse × Option (EmbedResponseData Num)) :
    Nat → List String →
    List String × Except String (List (ContentEmbedding Num))
  | _, [] => ([], .ok [])
  | i, input :: rest =>
    let r := respOf i
    if r.1.ok then
      match r.2 with
      | some d =>
        let tail := embedLoop respOf (i + 1) rest
        match d.data with
        | some (item :: _) =>
          (input :: tail.1, tail.2.map (fun es => { values := item.embedding } :: es))
        | _ => (input :: tail.1, tail.2)
      | none => ([input], .error "SyntaxError: invalid JSON body")
    else ([input], .error (embeddingErrorMsg r.1.statusText))

/-- embedContent (lines 244-289): extract the texts of the normalized
contents, run the sequential loop from call number 0, and wrap a
successful collection into the response envelope. The first component
records the inputs POSTed, in order. -/
def embedContent {Num : Type} (req : GenRequest)
    (respOf : Nat → HttpResponse × Option (EmbedResponseData Num)) :
    List String × Except String (EmbedContentResponse Num) :=
  let r := embedLoop respOf 0 (extractTexts (normalizeContents req.contents))
  (r.1, r.2.map (fun es => { embeddings := es }))

/-- Substring test on character lists (whether needle occurs contiguously
in hay), used to state that an error message exposes a datum. -/
def containsChars : List Char → List Char → Bool
  | [], needle => needle.isEmpty
  | c :: t, needle => needle.isPrefixOf (c :: t) || containsChars t needle

/-- The embedding collected from one parsed embeddings response
(lines 281-283): the first data element's vector when data is present
and non-empty, nothing otherwise. -/
def firstEmbedding {Num : Type} (d : EmbedResponseData Num) :
    Option (ContentEmbedding Num) :=
  match d.data with
  | some (item :: _) => some { values := item.embedding }
  | _ => none

/-- Splitting a concatenation: the complete lines of a ++ b are the
complete lines of a followed by the complete lines of (remainder of a)
++ b, and the final remainder comes from the latter. This is the heart
of chunk-boundary invariance: a single newline character cannot straddle
a chunk boundary. -/
theorem splitComplete_append (a b : List Char) :
    splitComplete (a ++ b) =
      ((splitComplete a).1 ++ (splitComplete ((splitComplete a).2 ++ b)).1,
       (splitComplete ((splitComplete a).2 ++ b)).2) := by
  induction a with
  | nil => simp [splitComplete]
  | cons c a ih =>
    by_cases hc : c = '\n'
    · subst hc
      simp [splitComplete, ih]
    · have hstep : ∀ s : List Char, splitComplete (c :: s) = consHead c (splitComplete s) := by
        intro s
        simp [splitComplete, if_neg hc]
      rcases hsa : splitComplete a with ⟨l1, r1⟩
      rcases hst : splitComplete (r1 ++ b) with ⟨l2, r2⟩
      have ih' : splitComplete (a ++ b) = (l1 ++ l2, r2) := by
        rw [ih, hsa]
        simp [hst]
      rcases l1 with _ | ⟨p, ps⟩
      · have h1 : splitComplete (c :: a) = ([], c :: r1) := by
          rw [hstep, hsa]
          rfl
        rw [List.cons_append, hstep, ih', List.nil_append, h1]
        show consHead c (l2, r2) =
          ([] ++ (splitComplete ((c :: r1) ++ b)).1, (splitComplete ((c :: r1) ++ b)).2)
        rw [List.nil_append, List.cons_append, hstep, hst]
      · have h1 : splitComplete (c :: a) = ((c :: p) :: ps, r1) := by
          rw [hstep, hsa]
          rfl
        rw [List.cons_append, hstep, ih', h1, List.cons_append]
        simp [consHead, hst]

/-- No byte is lost by one buffer split: re-inserting the consumed
newlines and appending the retained remainder reconstructs the input. -/
theorem unsplitLines_splitComplete (s : List Char) :
    unsplitLines (splitComplete s).1 (splitComplete s).2 = s := by
  induction s with
  | nil => simp [splitComplete, unsplitLines]
  | cons c s ih =>
    by_cases hc : c = '\n'
    · subst hc
      simp only [splitComplete, if_pos rfl, unsplitLines, List.map_cons,
        List.flatten_cons, List.nil_append] at ih ⊢
      simpa using ih
    · rcases h1 : (splitComplete s).1 with _ | ⟨p, ps⟩
      · simp only [splitComplete, if_neg hc, consHead, h1, unsplitLines,
          List.map_nil, List.flatten_nil, List.nil_append] at ih ⊢
        simp [ih]
      · simp only [splitComplete, if_neg hc, consHead, h1, unsplitLines,
          List.map_cons, List.flatten_cons, List.nil_append,
          List.cons_append, List.append_assoc, List.singleton_append] at ih ⊢
        rw [ih]

/-- Two consecutive decoding iterations amount to one iteration on the
concatenated chunk: the buffer carry-over is associative. -/
theorem streamStep_append (parse : List Char → Option OpenAIStreamChunk)
    (st : List Char × List GenerateContentResponse) (c1 c2 : List Char) :
    streamStep parse (streamStep parse st c1) c2 =
      streamStep parse st (c1 ++ c2) := by
  unfold streamStep
  rw [show st.1 ++ (c1 ++ c2) = (st.1 ++ c1) ++ c2 from (List.append_assoc _ _ _).symm,
    splitComplete_append (st.1 ++ c1) c2]
  simp [List.flatMap_append, List.append_assoc]

/-- Folding the decoding step over a non-empty chunk list is the same as
one step on the flattened body. -/
theorem foldl_streamStep (parse : List Char → Option OpenAIStreamChunk)
    (chunks : List (List Char)) (c : List Char)
    (st : List Char × List GenerateContentResponse) :
    List.foldl (streamStep parse) st (c :: chunks) =
      streamStep parse st (c :: chunks).flatten := by
  induction chunks generalizing c st with
  | nil => simp
  | cons c2 cs ih =>
    calc List.foldl (streamStep parse) st (c :: c2 :: cs)
        = List.foldl (streamStep parse) (streamStep parse st c) (c2 :: cs) := rfl
      _ = streamStep parse (streamStep parse st c) (c2 :: cs).flatten := ih c2 _
      _ = streamStep parse st (c ++ (c2 :: cs).flatten) := streamStep_append ..
      _ = streamStep parse st (c :: c2 :: cs).flatten := by
          simp [List.flatten_cons]

/-- An upper-cased string is empty exactly when its source is empty. -/
theorem jsToUpperCase_eq_empty_iff (s : String) : jsToUpperCase s = "" ↔ s = "" := by
  rw [String.ext_iff, String.ext_iff]
  show s.data.map Char.toUpper = "".data ↔ s.data = "".data
  have h : "".data = [] := rfl
  rw [h]
  simp

/-- jsFinishReason tests the emptiness of the input rather than of the
upper-cased output; the two tests agree. -/
theorem jsFinishReason_eq (fr : Option String) :
    jsFinishReason fr =
      match fr with
      | some f => if f = "" then none else some (jsToUpperCase f)
      | none => none := by
  cases fr with
  | none => rfl
  | some f =>
    simp only [jsFinishReason]
    by_cases hf : f = ""
    · simp [hf, jsToUpperCase_eq_empty_iff]
    · have hne : jsToUpperCase f ≠ "" := fun hu => hf ((jsToUpperCase_eq_empty_iff f).mp hu)
      simp [hf, hne]

/-- C1: the sequence of normalized chunks produced by the streaming
decoding loop is the same whether the body bytes arrive as one single
chunk or split at arbitrary chunk boundaries (for every behavior of the
per-line JSON parse), and the Decode Buffer never loses a byte: at each
iteration, re-inserting the consumed newlines into the completed lines
and appending the retained remainder reconstructs buffer ++ chunk. -/
theorem decodeStream_chunk_boundary_invariant
    (parse : List Char → Option OpenAIStreamChunk) (chunks : List (List Char)) :
    decodeStream parse chunks = decodeStream parse [chunks.flatten] ∧
      ∀ buffer chunk : List Char,
        unsplitLines (splitComplete (buffer ++ chunk)).1
            (splitComplete (buffer ++ chunk)).2 = buffer ++ chunk := by
  constructor
  · rcases chunks with _ | ⟨c, cs⟩
    · rfl
    · show (List.foldl (streamStep parse) ([], []) (c :: cs)).2 =
        (List.foldl (streamStep parse) ([], []) [(c :: cs).flatten]).2
      rw [foldl_streamStep]
      rfl
  · intro buffer chunk
    exact unsplitLines_splitComplete _

/-- A concrete frame with non-empty delta text and a present but empty
finish_reason, the input refuting C2 as stated. -/
def frameEmptyFinish : OpenAIStreamChunk :=
  { id := "chatcmpl-1", object := "chat.completion.chunk", created := 0,
    model := "llama3",
    choices := some [{ index := 0, delta := { content := some "hi" },
                       finish_reason := some "" }] }

/-- C2, counterexample: the claim predicts that a present finish_reason
is always surfaced upper-cased, so for finish_reason equal to the empty
string it predicts a chunk carrying the (present) empty finishReason;
the code instead collapses the falsy upper-cased empty string through
the or-undefined fallback and emits an absent finishReason. -/
theorem frameChunks_empty_finish_counterexample :
    frameChunks frameEmptyFinish =
      [{ candidates := [{ content := { role := "model", parts := [{ text := "hi" }] },
                          finishReason := none, index := 0 }],
         usageMetadata := none }] ∧
    frameChunks frameEmptyFinish ≠
      [{ candidates := [{ content := { role := "model", parts := [{ text := "hi" }] },
                          finishReason := some (jsToUpperCase ""), index := 0 }],
         usageMetadata := none }] := by
  constructor
  · rfl
  · decide

/-- C2 (amended): for every successfully parsed stream frame the decoder
inspects only the first choice (the emitted chunks do not change when the
later choices are dropped); when its delta carries non-empty text it
emits exactly one normalized chunk containing a single candidate with
role model, a single text part equal to the delta text and index 0,
whose finishReason is the frame's finish_reason upper-cased when that is
present and non-empty, and absent when finish_reason is absent or empty
(the amendment: a present but empty finish_reason yields an absent
finishReason); when the delta carries no text, nothing is emitted. -/
theorem frameChunks_spec (data : OpenAIStreamChunk) (c0 : StreamChoice)
    (rest : List StreamChoice) (h : data.choices = some (c0 :: rest)) :
    (∀ s, c0.delta.content = some s → s ≠ "" →
      frameChunks data =
        [{ candidates :=
            [{ content := { role := "model", parts := [{ text := s }] },
               finishReason :=
                 match c0.finish_reason with
                 | some f => if f = "" then none else some (jsToUpperCase f)
                 | none => none,
               index := 0 }],
           usageMetadata := none }]) ∧
    ((c0.delta.content = none ∨ c0.delta.content = some "") →
      frameChunks data = []) ∧
    frameChunks data = frameChunks { data with choices := some [c0] } := by
  refine ⟨?_, ?_, ?_⟩
  · intro s hs hne
    simp only [frameChunks, h, hs, if_neg hne, jsFinishReason_eq]
  · intro hempty
    rcases hempty with he | he <;> simp [frameChunks, h, he]
  · simp [frameChunks, h]

/-- A concrete frame with delta text Hello and finish_reason stop. -/
def frameStop : OpenAIStreamChunk :=
  { id := "chatcmpl-2", object := "chat.completion.chunk", created := 0,
    model := "llama3",
    choices := some [{ index := 0, delta := { content := some "Hello" },
                       finish_reason := some "stop" }] }

/-- Witness for frameChunks_spec: the frame with delta text Hello and
finish_reason stop emits one chunk with finishReason STOP. -/
theorem frameChunks_spec_witness :
    frameChunks frameStop =
      [{ candidates := [{ content := { role := "model", parts := [{ text := "Hello" }] },
                          finishReason := some "STOP", index := 0 }],
         usageMetadata := none }] := by
  have h := (frameChunks_spec frameStop
      { index := 0, delta := { content := some "Hello" }, finish_reason := some "stop" }
      [] rfl).1 "Hello" rfl (by decide)
  rw [h]
  decide

/-- C3: for every candidate line, a line that trims to empty produces no
output; the literal terminator line produces no output; a data-tagged
line whose remainder fails to parse produces no output; and a line that
produces no output never disturbs the chunks of the surrounding lines,
so subsequent valid lines still produce chunks. processLine being total
is the no-error half: the try/catch confines a parse failure to its own
line instead of aborting the stream. -/
theorem processLine_skips (parse : List Char → Option OpenAIStreamChunk)
    (line : List Char) :
    (trimChars line = [] → processLine parse line = []) ∧
    (trimChars line = doneLine → processLine parse line = []) ∧
    (parse ((trimChars line).drop 6) = none → processLine parse line = []) ∧
    (∀ pre post : List (List Char), processLine parse line = [] →
      (pre ++ line :: post).flatMap (processLine parse) =
        pre.flatMap (processLine parse) ++ post.flatMap (processLine parse)) := by
  refine ⟨?_, ?_, ?_, ?_⟩
  · intro h
    simp [processLine, h]
  · intro h
    have hne : doneLine ≠ ([] : List Char) := by decide
    simp [processLine, h, hne]
  · intro hp
    by_cases h1 : trimChars line = []
    · simp [processLine, h1]
    · by_cases h2 : trimChars line = doneLine
      · simp [processLine, h1, h2]
      · by_cases h3 : streamDataTag.isPrefixOf (trimChars line) = true
        · simp [processLine, h1, h2, h3, hp]
        · simp [processLine, h1, h2, h3]
  · intro pre post h
    simp [List.flatMap_append, List.flatMap_cons, h]

/-- A parse function rejecting every line, the behavior of JSON.parse on
a line whose remainder is malformed. -/
def parseNone : List Char → Option OpenAIStreamChunk := fun _ => none

/-- Witness for processLine_skips: a data-tagged line with a malformed
remainder yields no output and no error. -/
theorem processLine_skips_witness :
    processLine parseNone ("data: notjson".data) = [] :=
  (processLine_skips parseNone ("data: notjson".data)).2.2.1 rfl

/-- C10: a well-parsed frame whose choices field is absent or an empty
array emits no chunk and raises no error, and the line carrying it
contributes nothing, decoding continuing with the next line; the guard
on presence and non-emptiness makes the first-choice access unreachable,
which the total model reflects. -/
theorem frameChunks_no_choices (data : OpenAIStreamChunk)
    (h : data.choices = none ∨ data.choices = some []) :
    frameChunks data = [] ∧
      ∀ (parse : List Char → Option OpenAIStreamChunk) (line : List Char),
        parse ((trimChars line).drop 6) = some data →
          processLine parse line = [] := by
  have hfc : frameChunks data = [] := by
    rcases h with h | h <;> simp [frameChunks, h]
  refine ⟨hfc, ?_⟩
  intro parse line hp
  by_cases h1 : trimChars line = []
  · simp [processLine, h1]
  · by_cases h2 : trimChars line = doneLine
    · simp [processLine, h1, h2]
    · by_cases h3 : streamDataTag.isPrefixOf (trimChars line) = true
      · simp [processLine, h1, h2, h3, hp, hfc]
      · simp [processLine, h1, h2, h3]

/-- A concrete frame with no choices field. -/
def frameNoChoices : OpenAIStreamChunk :=
  { id := "chatcmpl-3", object := "chat.completion.chunk", created := 0,
    model := "llama3", choices := none }

/-- A parse function returning the choice-less frame for every line. -/
def parseNoChoices : List Char → Option OpenAIStreamChunk :=
  fun _ => some frameNoChoices

/-- Witness for frameChunks_no_choices at the concrete choice-less frame. -/
theorem frameChunks_no_choices_witness :
    frameChunks frameNoChoices = [] ∧
      processLine parseNoChoices ("data: anything".data) = [] := by
  have h := frameChunks_no_choices frameNoChoices (Or.inl rfl)
  exact ⟨h.1, h.2 parseNoChoices ("data: anything".data) rfl⟩

/-- C4: for every successful non-streaming completion, generateContent
returns one candidate per choice in the same order (role model, a single
text part equal to the choice's message content, finishReason the
upper-cased finish_reason, index copied through) and usageMetadata is
copied field-by-field from usage. -/
theorem generateContent_success_spec (resp : HttpResponse)
    (parseBody : String → Option OpenAICompletionResponse)
    (data : OpenAICompletionResponse)
    (hok : resp.ok = true) (hp : parseBody resp.body = some data) :
    generateContent resp parseBody = .ok (completionToResponse data) ∧
    (completionToResponse data).candidates.length = data.choices.length ∧
    (∀ i : Nat, (completionToResponse data).candidates[i]? =
      (data.choices[i]?).map (fun choice =>
        { content := { role := "model", parts := [{ text := choice.message.content }] },
          finishReason := some (jsToUpperCase choice.finish_reason),
          index := choice.index })) ∧
    (completionToResponse data).usageMetadata =
      some { promptTokenCount := data.usage.prompt_tokens,
             candidatesTokenCount := data.usage.completion_tokens,
             totalTokenCount := data.usage.total_tokens } := by
  refine ⟨?_, ?_, ?_, rfl⟩
  · simp [generateContent, hok, hp]
  · simp [completionToResponse]
  · intro i
    simp only [completionToResponse, List.getElem?_map]
    rfl

/-- A successful HTTP response. -/
def respOk : HttpResponse := { status := 200, statusText := "OK", body := "unused" }

/-- A concrete completion with two choices, finish_reasons stop and
length. -/
def completionTwo : OpenAICompletionResponse :=
  { id := "cmpl-1", object := "chat.completion", created := 0,
    choices :=
      [{ index := 0, message := { role := "assistant", content := "Hello" },
         finish_reason := "stop" },
       { index := 1, message := { role := "assistant", content := "Howdy" },
         finish_reason := "length" }],
    usage := { prompt_tokens := 3, completion_tokens := 5, total_tokens := 8 } }

/-- A parse function producing the two-choice completion. -/
def parseCompletionTwo : String → Option OpenAICompletionResponse :=
  fun _ => some completionTwo

/-- Witness for generateContent_success_spec: the two-choice completion
yields two candidates in order with upper-cased finish reasons. -/
theorem generateContent_success_spec_witness :
    generateContent respOk parseCompletionTwo = .ok (completionToResponse completionTwo) ∧
    (completionToResponse completionTwo).candidates.map Candidate.finishReason =
      [some "STOP", some "LENGTH"] := by
  have h := generateContent_success_spec respOk parseCompletionTwo completionTwo
    (by decide) rfl
  exact ⟨h.1, by decide⟩

/-- containsChars finds a needle placed directly after an arbitrary left
context. -/
theorem containsChars_append (hay1 hay2 needle : List Char)
    (h : needle.isPrefixOf hay2 = true) :
    containsChars (hay1 ++ hay2) needle = true := by
  induction hay1 with
  | nil =>
    cases hay2 with
    | nil =>
      cases needle with
      | nil => rfl
      | cons c t => simp [List.isPrefixOf] at h
    | cons c t => simp [containsChars, h]
  | cons c t ih => simp [containsChars, ih]

/-- C5: a non-2xx chat-completions response makes generateContent fail
with the Ollama API error built from the status and the raw body, makes
generateContentStream fail during setup (an error instead of a chunk
sequence, whatever body and parse would have followed), and that error
message exposes both the numeric status code and the raw body as
substrings. -/
theorem generateContent_http_error (resp : HttpResponse)
    (parseBody : String → Option OpenAICompletionResponse)
    (bodyChunks : Option (List (List Char)))
    (parse : List Char → Option OpenAIStreamChunk)
    (h : resp.ok = false) :
    generateContent resp parseBody = .error (ollamaApiErrorMsg resp.status resp.body) ∧
    generateContentStream resp bodyChunks parse =
      .error (ollamaApiErrorMsg resp.status resp.body) ∧
    containsChars (ollamaApiErrorMsg resp.status resp.body).data
      (toString resp.status).data = true ∧
    containsChars (ollamaApiErrorMsg resp.status resp.body).data
      resp.body.data = true := by
  refine ⟨?_, ?_, ?_, ?_⟩
  · simp [generateContent, h]
  · simp [generateContentStream, h]
  · have hdata : (ollamaApiErrorMsg resp.status resp.body).data =
        "Ollama API error: ".data ++
          ((toString resp.status).data ++ (" - ".data ++ resp.body.data)) := by
      simp [ollamaApiErrorMsg, String.data_append]
    rw [hdata]
    exact containsChars_append _ _ _ (by simp [List.isPrefixOf_iff_prefix])
  · have hdata : (ollamaApiErrorMsg resp.status resp.body).data =
        ("Ollama API error: ".data ++ (toString resp.status).data ++ " - ".data) ++
          resp.body.data := by
      simp [ollamaApiErrorMsg, String.data_append, List.append_assoc]
    rw [hdata]
    exact containsChars_append _ _ _ (by simp [List.isPrefixOf_iff_prefix])

/-- A failing HTTP response: status 500, body overloaded. -/
def resp500 : HttpResponse :=
  { status := 500, statusText := "Internal Server Error", body := "overloaded" }

/-- A completion-body parse that rejects every body. -/
def parseCompletionNone : String → Option OpenAICompletionResponse := fun _ => none

/-- Witness for generateContent_http_error at status 500 with body
overloaded: both operations fail with the same error message. -/
theorem generateContent_http_error_witness :
    generateContent resp500 parseCompletionNone =
      .error (ollamaApiErrorMsg 500 "overloaded") ∧
    generateContentStream resp500 none parseNone =
      .error (ollamaApiErrorMsg 500 "overloaded") := by
  have h := generateContent_http_error resp500 parseCompletionNone none parseNone
    (by decide)
  exact ⟨h.1, h.2.1⟩

/-- The Backend Message derived from one Conversation Turn by the
amended C8 rule (modelled from the spec, amended): user stays user,
model becomes assistant, any other non-empty role becomes system, and an
absent or empty role is defaulted to user before mapping; the content is
the in-order concatenation of each fragment's text, textless fragments
contributing the empty string. -/
def specMessageAmended (c : Content) : OpenAIMessage :=
  { role :=
      match c.role with
      | none => "user"
      | some r =>
        if r = "" then "user"
        else if r = "user" then "user"
        else if r = "model" then "assistant"
        else "system",
    content := String.join ((c.parts.getD []).map (fun part => part.text.getD "")) }

/-- The Backend Message C8 as stated derives from one Conversation Turn
(modelled from the spec as written): an absent role maps to system. -/
def specMessageClaimed (c : Content) : OpenAIMessage :=
  { role :=
      match c.role with
      | none => "system"
      | some r =>
        if r = "user" then "user"
        else if r = "model" then "assistant"
        else "system",
    content := String.join ((c.parts.getD []).map (fun part => part.text.getD "")) }

/-- A turn with an absent role and one text fragment. -/
def turnNoRole : Content := { role := none, parts := some [{ text := some "hi" }] }

/-- C8, counterexample: a turn with an absent role derives a backend
message with role user, because the code defaults an absent (or empty,
falsy) role to user before mapping; the claim as stated predicts system. -/
theorem toOpenAIMessages_no_role_counterexample :
    toOpenAIMessages [turnNoRole] = [{ role := "user", content := "hi" }] ∧
    toOpenAIMessages [turnNoRole] ≠ [specMessageClaimed turnNoRole] := by
  constructor
  · decide
  · decide

/-- C8 (amended): one backend message is derived per turn, 1:1 and
order-preserving, with role mapped by user to user, model to assistant,
any other non-empty role to system, and an absent or empty role treated
as user (the amendment), and content the in-order concatenation of every
fragment's text with textless fragments contributing the empty string
(no separator), an absent fragment list yielding the empty string. -/
theorem toOpenAIMessages_spec (contents : List Content) :
    toOpenAIMessages contents = contents.map specMessageAmended := by
  unfold toOpenAIMessages
  apply List.map_congr_left
  intro c _
  have hrole : toOpenAIRole (jsOrDefault c.role "user") =
      (match c.role with
       | none => "user"
       | some r =>
         if r = "" then "user"
         else if r = "user" then "user"
         else if r = "model" then "assistant"
         else "system") := by
    cases c.role with
    | none => rfl
    | some r =>
      by_cases h1 : r = ""
      · simp [jsOrDefault, toOpenAIRole, h1]
      · simp only [jsOrDefault, if_neg h1]
        by_cases h2 : r = "user"
        · simp [toOpenAIRole, h2]
        · by_cases h3 : r = "model"
          · simp [toOpenAIRole, h2, h3]
          · simp [toOpenAIRole, h2, h3]
  simp [specMessageAmended, hrole]

/-- C9: the effective model name sent by generateContent and by
generateContentStream is the configured default model when the requested
name begins with the reserved gemini model-family marker, and the
requested name verbatim otherwise; the two payloads differ only in the
streaming flag. -/
theorem payload_effective_model (cfgModel : String) (req : GenRequest) :
    ((generateContentPayload cfgModel req).model =
      if req.model.startsWith "gemini" then cfgModel else req.model) ∧
    ((generateContentStreamPayload cfgModel req).model =
      if req.model.startsWith "gemini" then cfgModel else req.model) ∧
    (generateContentPayload cfgModel req).stream = false ∧
    (generateContentStreamPayload cfgModel req).stream = true ∧
    (generateContentPayload cfgModel req).messages =
      (generateContentStreamPayload cfgModel req).messages := by
  refine ⟨?_, ?_, ?_, ?_, ?_⟩ <;>
    simp [generateContentPayload, generateContentStreamPayload, effectiveModel]

/-- Embedding responses for which every call fails with status 500,
statusText Internal Server Error, body overloaded. -/
def embedRespFail : Nat → HttpResponse × Option (EmbedResponseData Int) :=
  fun _ => (resp500, none)

/-- A request carrying one text fragment hi. -/
def embedReqOne : GenRequest :=
  { model := "some-model",
    contents := .list [{ role := some "user", parts := some [{ text := some "hi" }] }] }

/-- C6, counterexample: the embedding error message is built from the
response's statusText only; at status 500 with statusText Internal
Server Error and body overloaded, the message thrown by embedContent
contains neither the digits of the numeric status code nor the raw body,
refuting the claim that the error carries both. -/
theorem embedContent_error_counterexample :
    (embedContent embedReqOne embedRespFail).2 =
      .error "Ollama Embedding Error: Internal Server Error" ∧
    containsChars "Ollama Embedding Error: Internal Server Error".data
      "500".data = false ∧
    containsChars "Ollama Embedding Error: Internal Server Error".data
      "overloaded".data = false := by
  refine ⟨rfl, by decide, by decide⟩

/-- When the first i calls of the embedding loop succeed with parseable
bodies and the i-th response is not ok, the loop aborts with the
embedding error built from that response's statusText, returning no
partial result. -/
theorem embedLoop_http_error_aux {Num : Type}
    (respOf : Nat → HttpResponse × Option (EmbedResponseData Num)) :
    ∀ (texts : List String) (i k : Nat), i < texts.length →
      (∀ j, j < i → ((respOf (k + j)).1.ok = true ∧ ((respOf (k + j)).2).isSome = true)) →
      (respOf (k + i)).1.ok = false →
      (embedLoop respOf k texts).2 =
        .error (embeddingErrorMsg (respOf (k + i)).1.statusText) := by
  intro texts
  induction texts with
  | nil =>
    intro i k hi
    simp at hi
  | cons t rest ih =>
    intro i k hi hj hf
    cases i with
    | zero =>
      rw [Nat.add_zero] at hf
      simp [embedLoop, hf]
    | succ i2 =>
      obtain ⟨hok0, hsome0⟩ := hj 0 (Nat.succ_pos _)
      rw [Nat.add_zero] at hok0 hsome0
      obtain ⟨d, hd⟩ := Option.isSome_iff_exists.mp hsome0
      have hidx : k + (i2 + 1) = (k + 1) + i2 := by omega
      have hrec := ih i2 (k + 1) (by simpa using hi)
        (fun j hjlt => by
          have h2 := hj (j + 1) (by omega)
          have heq : k + (j + 1) = (k + 1) + j := by omega
          rwa [heq] at h2)
        (by rwa [hidx] at hf)
      rw [hidx]
      cases hdd : d.data with
      | none => simpa [embedLoop, hok0, hd, hdd] using hrec
      | some items =>
        cases items with
        | nil => simpa [embedLoop, hok0, hd, hdd] using hrec
        | cons it its => simp [embedLoop, hok0, hd, hdd, hrec, Except.map]

/-- C6 (amended): a non-2xx response from the embeddings endpoint makes
embedContent fail with an error carrying the HTTP statusText of the
failing response (the amendment: the message is built from statusText
only, exposing neither the numeric status code nor the raw body),
aborting the remaining sequence of per-text calls with no partial-result
return. -/
theorem embedContent_http_error {Num : Type} (req : GenRequest)
    (respOf : Nat → HttpResponse × Option (EmbedResponseData Num)) (i : Nat)
    (hi : i < (extractTexts (normalizeContents req.contents)).length)
    (hj : ∀ j, j < i → ((respOf j).1.ok = true ∧ ((respOf j).2).isSome = true))
    (hf : (respOf i).1.ok = false) :
    (embedContent req respOf).2 =
      .error (embeddingErrorMsg (respOf i).1.statusText) := by
  have h := embedLoop_http_error_aux respOf
    (extractTexts (normalizeContents req.contents)) i 0 hi
    (fun j hjlt => by simpa using hj j hjlt) (by simpa using hf)
  simp only [Nat.zero_add] at h
  simp only [embedContent]
  rw [h]
  rfl

/-- Witness for embedContent_http_error: the one-text request whose
first call fails with status 500 aborts with the statusText-only
message. -/
theorem embedContent_http_error_witness :
    (embedContent embedReqOne embedRespFail).2 =
      .error (embeddingErrorMsg "Internal Server Error") :=
  embedContent_http_error embedReqOne embedRespFail 0 (by decide)
    (fun _ hj => absurd hj (by omega)) (by decide)

/-- Encounter-order characterization of text extraction: flattening all
fragments of all turns and keeping the truthy texts. -/
theorem extractTexts_eq (contents : List Content) :
    extractTexts contents =
      (contents.flatMap (fun c => c.parts.getD [])).filterMap
        (fun part => (part.text).bind (fun t => if t = "" then none else some t)) := by
  have hfun : ∀ part : Part,
      (match part.text with
       | some t => if t = "" then none else some t
       | none => none) =
      (part.text).bind (fun t => if t = "" then none else some t) := by
    intro part
    cases part.text <;> rfl
  induction contents with
  | nil => rfl
  | cons c cs ih =>
    simp only [extractTexts] at ih ⊢
    rw [List.flatMap_cons, List.flatMap_cons, List.filterMap_append, ih]
    congr 1
    cases c.parts with
    | none => rfl
    | some ps =>
      simp only [hfun, Option.getD_some]

/-- When every call's response is ok with a parseable body, the loop
posts exactly the input texts in order, and collects, for the j-th text,
the first element's vector of the j-th response's data array when that
array is present and non-empty, skipping the text otherwise. -/
theorem embedLoop_success_aux {Num : Type}
    (respOf : Nat → HttpResponse × Option (EmbedResponseData Num)) :
    ∀ (texts : List String) (k : Nat),
      (∀ j, j < texts.length →
        ((respOf (k + j)).1.ok = true ∧ ((respOf (k + j)).2).isSome = true)) →
      (embedLoop respOf k texts).1 = texts ∧
      (embedLoop respOf k texts).2 =
        .ok ((List.range texts.length).filterMap (fun j =>
          ((respOf (k + j)).2).bind firstEmbedding)) := by
  intro texts
  induction texts with
  | nil => exact fun k _ => ⟨rfl, rfl⟩
  | cons t rest ih =>
    intro k h
    obtain ⟨hok0, hsome0⟩ := h 0 (Nat.succ_pos _)
    rw [Nat.add_zero] at hok0 hsome0
    obtain ⟨d, hd⟩ := Option.isSome_iff_exists.mp hsome0
    have hrec := ih (k + 1) (fun j hjlt => by
      have h2 := h (j + 1) (by simpa using hjlt)
      have heq : k + (j + 1) = (k + 1) + j := by omega
      rwa [heq] at h2)
    have hshift :
        ((List.range rest.length).map Nat.succ).filterMap
            (fun j => ((respOf (k + j)).2).bind firstEmbedding) =
          (List.range rest.length).filterMap
            (fun j => ((respOf ((k + 1) + j)).2).bind firstEmbedding) := by
      rw [List.filterMap_map]
      have heq : (fun j => ((respOf (k + j)).2).bind firstEmbedding) ∘ Nat.succ =
          fun j => ((respOf ((k + 1) + j)).2).bind firstEmbedding := by
        funext j
        have : k + (j + 1) = (k + 1) + j := by omega
        simp [Function.comp, Nat.succ_eq_add_one, this]
      rw [heq]
    rw [List.length_cons, List.range_succ_eq_map, List.filterMap_cons]
    cases hdd : d.data with
    | none =>
      refine ⟨?_, ?_⟩
      · simp [embedLoop, hok0, hd, hdd, hrec.1]
      · have hout : (embedLoop respOf k (t :: rest)).2 = (embedLoop respOf (k + 1) rest).2 := by
          simp [embedLoop, hok0, hd, hdd]
        rw [hout, hrec.2, hshift]
        simp [hd, firstEmbedding, hdd, Option.bind]
    | some items =>
      cases items with
      | nil =>
        refine ⟨?_, ?_⟩
        · simp [embedLoop, hok0, hd, hdd, hrec.1]
        · have hout : (embedLoop respOf k (t :: rest)).2 = (embedLoop respOf (k + 1) rest).2 := by
            simp [embedLoop, hok0, hd, hdd]
          rw [hout, hrec.2, hshift]
          simp [hd, firstEmbedding, hdd, Option.bind]
      | cons it its =>
        refine ⟨?_, ?_⟩
        · simp [embedLoop, hok0, hd, hdd, hrec.1]
        · have hout : (embedLoop respOf k (t :: rest)).2 =
              (embedLoop respOf (k + 1) rest).2.map
                (fun es => { values := it.embedding } :: es) := by
            simp [embedLoop, hok0, hd, hdd]
          rw [hout, hrec.2, hshift]
          simp [hd, firstEmbedding, hdd, Option.bind, Except.map]

/-- C7: embedContent extracts exactly the truthy text fragments of all
turns in encounter order (turn order then fragment order, fragments
without text skipped entirely); it issues one embedding call per
extracted text, sequentially in that order; and a response whose data
field is missing or empty contributes no embedding, so the output list
preserves order and its length is at most the number of extracted
texts. -/
theorem embedContent_flatten_order {Num : Type} (req : GenRequest)
    (respOf : Nat → HttpResponse × Option (EmbedResponseData Num))
    (hresp : ∀ j, j < (extractTexts (normalizeContents req.contents)).length →
      ((respOf j).1.ok = true ∧ ((respOf j).2).isSome = true)) :
    extractTexts (normalizeContents req.contents) =
      ((normalizeContents req.contents).flatMap (fun c => c.parts.getD [])).filterMap
        (fun part => (part.text).bind (fun t => if t = "" then none else some t)) ∧
    (embedContent req respOf).1 = extractTexts (normalizeContents req.contents) ∧
    (embedContent req respOf).2 =
      .ok { embeddings := (List.range
              (extractTexts (normalizeContents req.contents)).length).filterMap
              (fun j => ((respOf j).2).bind firstEmbedding) } ∧
    ((List.range (extractTexts (normalizeContents req.contents)).length).filterMap
        (fun j => ((respOf j).2).bind firstEmbedding)).length ≤
      (extractTexts (normalizeContents req.contents)).length := by
  have haux := embedLoop_success_aux respOf
    (extractTexts (normalizeContents req.contents)) 0
    (fun j hjlt => by simpa using hresp j hjlt)
  refine ⟨extractTexts_eq _, ?_, ?_, ?_⟩
  · simpa [embedContent] using haux.1
  · have h2 := haux.2
    simp only [Nat.zero_add] at h2
    simp only [embedContent]
    rw [h2]
    rfl
  · have := List.length_filterMap_le
      (fun j => ((respOf j).2).bind firstEmbedding)
      (List.range (extractTexts (normalizeContents req.contents)).length)
    simpa [List.length_range] using this

/-- A request with two turns carrying three truthy text fragments
(one fragment without text in between). -/
def embedReqThree : GenRequest :=
  { model := "some-model",
    contents := .list
      [{ role := some "user",
         parts := some [{ text := some "alpha" }, { text := none },
                        { text := some "beta" }] },
       { role := some "model", parts := some [{ text := some "gamma" }] }] }

/-- Embedding responses: every call succeeds, but the second call's
response carries no data field. -/
def embedRespThree : Nat → HttpResponse × Option (EmbedResponseData Int) :=
  fun j =>
    if j = 1 then ({ status := 200, statusText := "OK", body := "" }, some { data := none })
    else ({ status := 200, statusText := "OK", body := "" },
          some { data := some [{ embedding := [1, 2] }] })

/-- Witness for embedContent_flatten_order: three texts extracted in
encounter order, three calls issued in that order, and the second
response's missing data field shortens the result to two embeddings. -/
theorem embedContent_flatten_order_witness :
    (embedContent embedReqThree embedRespThree).1 = ["alpha", "beta", "gamma"] ∧
    (embedContent embedReqThree embedRespThree).2 =
      .ok { embeddings := [{ values := [1, 2] }, { values := [1, 2] }] } := by
  have h := embedContent_flatten_order embedReqThree embedRespThree (by decide)
  refine ⟨?_, ?_⟩
  · rw [h.2.1]
    decide
  · rw [h.2.2.1]
    rfl

end Ollama
